import Mathlib

/-! Verification development for `wikipedia_to_markdown`
(source: src/wikipedia_to_markdown.py).

The Python source is shallowly embedded below: each Lean definition carries
the name of the Python function (or loop) it translates.  Strings are Lean
`String`s; BeautifulSoup element trees become the inductive `Node`;
`Optional[...]` values become `Option`.  Python string helpers that the
source relies on (`str.strip`, `str.join`, `re.sub`, `re.search`) are
implemented explicitly on character lists so that every definition is
executable and every concrete evaluation can be discharged by `decide`.
-/

namespace WikipediaToMarkdown

/-- Python `str.strip()` on a character list: drop whitespace from both ends. -/
def pyStripList (l : List Char) : List Char :=
  ((l.dropWhile Char.isWhitespace).reverse.dropWhile Char.isWhitespace).reverse

/-- Python `str.strip()` on a `String`. -/
def pyStrip (s : String) : String :=
  ⟨pyStripList s.data⟩

/-- Python `str.lower()` (characterwise, as the source applies it to
ASCII heading text and class names). -/
def pyLower (s : String) : String :=
  ⟨s.data.map Char.toLower⟩

/-- Python `sep.join(items)`: items interleaved with the separator. -/
def pyJoin (sep : String) : List String → String
  | [] => ""
  | [x] => x
  | x :: y :: xs => x ++ sep ++ pyJoin sep (y :: xs)

/-- Python `"".join(parts)`: plain concatenation. -/
def concatAll : List String → String
  | [] => ""
  | x :: xs => x ++ concatAll xs

/-- Longest prefix of decimal digits, together with the remainder
(the `\d+` part of the regex `\[(\d+)\]`). -/
def spanDigits : List Char → List Char × List Char
  | [] => ([], [])
  | c :: cs =>
    if c.isDigit then
      let p := spanDigits cs
      (c :: p.1, p.2)
    else ([], c :: cs)

/-- Whether the characters following an opening bracket complete a match of
the regex `\[(\d+)\]`: one or more digits and then a closing bracket. -/
def isMarkerStart (l : List Char) : Bool :=
  match spanDigits l with
  | ([], _) => false
  | (_ :: _, ']' :: _) => true
  | (_ :: _, _) => false

/-- Python `re.sub(r'\[(\d+)\]', r'\\[\1]', text)` from `clean_text`.
A backslash is inserted before every `[` that opens a full `[digits]`
match.  Scanning continues inside the matched region, which agrees with
the regex engine's continue-after-the-match behaviour because no new
match can begin at a digit or at `]` (every match begins at `[`). -/
def escapeBracketsList : List Char → List Char
  | [] => []
  | c :: rest =>
    if c == '[' && isMarkerStart rest then
      '\\' :: c :: escapeBracketsList rest
    else
      c :: escapeBracketsList rest

/-- String form of `escapeBracketsList`. -/
def escB (s : String) : String :=
  ⟨escapeBracketsList s.data⟩

/-- Python `re.search(r'\[(\d+)\]', text)` from the superscript branch of
`clean_text`: the digits of the leftmost `[digits]` match, if any. -/
def searchMarkerDigits : List Char → Option (List Char)
  | [] => none
  | c :: rest =>
    if c == '[' then
      match spanDigits rest with
      | (d :: ds, ']' :: _) => some (d :: ds)
      | _ => searchMarkerDigits rest
    else searchMarkerDigits rest

/-- Number of positions at which `p` occurs as a substring of `l`
(used to state the escaped-exactly-once property). -/
def countSub (p : List Char) : List Char → Nat
  | [] => if p.isEmpty then 1 else 0
  | c :: t =>
    (if (c :: t).take p.length == p then 1 else 0) + countSub p t

/-- Whether `p` occurs as a contiguous substring of `l`. -/
def containsSub (p : List Char) : List Char → Bool
  | [] => p.isEmpty
  | c :: t => (c :: t).take p.length == p || containsSub p t

/-- Attributes of an HTML element as the source reads them:
`class` (absent or a list of class tokens), `alt`, `src`, `scope`. -/
structure Attrs where
  classes : Option (List String) := none
  alt : String := ""
  src : String := ""
  scope : String := ""
  deriving DecidableEq, Repr

/-- A node of the parsed article tree: a `NavigableString` or an element
with a tag name, attributes and ordered children. -/
inductive Node where
  | text (s : String)
  | elem (tag : String) (attrs : Attrs) (children : List Node)

/-- Tag name of a node; text nodes get the empty tag. -/
def tagOf : Node → String
  | .text _ => ""
  | .elem t _ _ => t

/-- Children of a node. -/
def childrenOf : Node → List Node
  | .text _ => []
  | .elem _ _ cs => cs

/-- Attributes of a node (text nodes get the defaults). -/
def attrsOf : Node → Attrs
  | .text _ => {}
  | .elem _ a _ => a

/-- Python `"class" in child.attrs and "reference" in child.attrs["class"]`
from the superscript branch of `clean_text`. -/
def hasReferenceClass (a : Attrs) : Bool :=
  match a.classes with
  | some cs => cs.contains "reference"
  | none => false

mutual

/-- BeautifulSoup `element.get_text()`: concatenation of all descendant
text, in document order. -/
def get_text : Node → String
  | .text s => s
  | .elem _ _ cs => get_text_list cs

/-- `get_text` over a child list. -/
def get_text_list : List Node → String
  | [] => ""
  | c :: r => get_text c ++ get_text_list r

end

/-- Modelled from the spec: image `src` attributes are "resolved against
the article's base URL if relative".  The source delegates to the external
`urllib.parse.urljoin`; this model covers the cases exercised here:
absolute references are returned unchanged, root-relative references are
attached to the scheme-and-host of the base, and other references replace
the last path segment of the base. -/
def schemeSplit : List Char → Option (List Char × List Char)
  | [] => none
  | c :: rest =>
    if (c :: rest).take 3 == "://".data then
      some ([], (c :: rest).drop 3)
    else
      match schemeSplit rest with
      | some (p, q) => some (c :: p, q)
      | none => none

/-- Scheme and host of a URL (everything up to the first `/` after `://`). -/
def schemeHost (s : String) : String :=
  match schemeSplit s.data with
  | some (p, q) => ⟨p ++ "://".data ++ q.takeWhile (fun c => c != '/')⟩
  | none => ⟨s.data.takeWhile (fun c => c != '/')⟩

/-- A URL string up to and including its last `/`. -/
def upToLastSlash (s : String) : String :=
  ⟨(s.data.reverse.dropWhile (fun c => c != '/')).reverse⟩

/-- Modelled from the spec: `urllib.parse.urljoin(base, ref)` as used by
the image branch of `clean_text` (see `schemeSplit` for the covered cases). -/
def urljoin (base ref : String) : String :=
  if containsSub "://".data ref.data then ref
  else if ref.data.take 1 == ['/'] then schemeHost base ++ ref
  else upToLastSlash base ++ ref

mutual

/-- Python `clean_text(element, inside_table, base_url)`
(src/wikipedia_to_markdown.py lines 68-118): concatenate the rendered
parts of the element's children.  Called on a text node it renders
nothing, matching the source, where `clean_text` is only ever applied to
elements. -/
def clean_text (n : Node) (inside_table : Bool) (base_url : String) : String :=
  match n with
  | .text _ => ""
  | .elem _ _ cs => clean_parts cs inside_table base_url

/-- The `for child in element.children` loop of `clean_text`: each child
contributes one part and the parts are concatenated by `"".join(parts)`. -/
def clean_parts (cs : List Node) (inside_table : Bool) (base_url : String) : String :=
  match cs with
  | [] => ""
  | c :: rest => part_of c inside_table base_url ++ clean_parts rest inside_table base_url

/-- The body of the `for child in element.children` loop of `clean_text`:
the part contributed by one child, by case on the child's kind.  The
recursive `clean_text(child, ...)` calls of the source are written as
`clean_parts` over the child's children, which is what `clean_text`
unfolds to on an element. -/
def part_of (c : Node) (inside_table : Bool) (base_url : String) : String :=
  match c with
  | .text s => escB s
  | .elem tag a cs =>
    if tag == "img" then
      "![" ++ a.alt ++ "](" ++ (if base_url != "" then urljoin base_url a.src else a.src) ++ ")"
    else if tag == "b" || tag == "strong" then
      let inner := pyStrip (clean_parts cs inside_table base_url)
      if inner != "" then "**" ++ inner ++ "**" else ""
    else if tag == "i" || tag == "em" then
      let inner := pyStrip (clean_parts cs inside_table base_url)
      if inner != "" then "*" ++ inner ++ "*" else ""
    else if tag == "a" then
      clean_parts cs inside_table base_url
    else if tag == "ul" || tag == "ol" then
      let items := li_items cs inside_table base_url
      if inside_table then
        pyJoin ", " items
      else
        concatAll (items.map (fun it => "- " ++ it ++ "\n"))
    else if tag == "sup" then
      if hasReferenceClass a then
        match searchMarkerDigits (get_text (.elem tag a cs)).data with
        | some ds => "\\[" ++ (⟨ds⟩ : String) ++ "]"
        | none => ""
      else
        clean_parts cs inside_table base_url
    else if tag == "span" || tag == "div" || tag == "small" || tag == "br" then
      clean_parts cs inside_table base_url
    else if tag == "dl" || tag == "dt" || tag == "dd" then
      let inner := pyStrip (clean_parts cs inside_table base_url)
      if inner != "" then inner ++ "\n" else ""
    else
      clean_parts cs inside_table base_url

/-- The `child.find_all("li", recursive=False)` loop inside the list
branch of `clean_text`: the rendered, stripped, non-empty texts of the
direct `li` children. -/
def li_items (cs : List Node) (inside_table : Bool) (base_url : String) : List String :=
  match cs with
  | [] => []
  | c :: rest =>
    match c with
    | .elem "li" _ lcs =>
      let item := pyStrip (clean_parts lcs inside_table base_url)
      if item != "" then item :: li_items rest inside_table base_url
      else li_items rest inside_table base_url
    | _ => li_items rest inside_table base_url

end

/-- Python `convert_heading(tag_name)`: `"#" * int(tag_name[1])`. -/
def convert_heading (tag_name : String) : String :=
  ⟨List.replicate ((tag_name.data.getD 1 '0').toNat - '0'.toNat) '#'⟩

/-- Tags treated as headings by the section walker. -/
def is_heading_tag (t : String) : Bool :=
  ["h1", "h2", "h3", "h4", "h5", "h6"].contains t

/-- Tags rendered as text blocks by the section walker. -/
def is_text_block_tag (t : String) : Bool :=
  ["p", "ul", "ol", "dl"].contains t

/-- The `default_stop` set of `build_markdown_from_article`. -/
def default_stop : List String :=
  ["references", "notes", "bibliography"]

/-- The `for element in content_div.find_all(...)` loop of
`build_markdown_from_article` (src/wikipedia_to_markdown.py lines 237-255),
taken over the sequence of block elements `find_all` yields in document
order.  Each iteration appends at most one Markdown block; a heading whose
stripped, lowercased `get_text` is in the stop set ends the whole loop
(`break`); tables are skipped (`continue`).  The source appends each block
with a trailing `"\n"` (see `body_lines`); the blocks themselves are
collected here. -/
def build_body (stop : List String) (base_url : String) : List Node → List String
  | [] => []
  | e :: rest =>
    if is_heading_tag (tagOf e) then
      if stop.contains (pyLower (pyStrip (get_text e))) then []
      else
        let hc := pyStrip (clean_text e false base_url)
        if hc != "" then
          (convert_heading (tagOf e) ++ " " ++ hc) :: build_body stop base_url rest
        else build_body stop base_url rest
    else if is_text_block_tag (tagOf e) then
      let t := pyStrip (clean_text e false base_url)
      if t != "" then t :: build_body stop base_url rest
      else build_body stop base_url rest
    else
      build_body stop base_url rest

/-- The exact strings the walker loop appends to `markdown_lines`:
each block followed by `"\n"` (the final document is their `"\n".join`,
giving blank-line separation between blocks). -/
def body_lines (stop : List String) (base_url : String) (es : List Node) : List String :=
  (build_body stop base_url es).map (fun b => b ++ "\n")

/-- One entry of the list built by `extract_references`:
`{"number": str(ref_number), "text": ref_text}`. -/
structure RefEntry where
  number : String
  text : String
  deriving DecidableEq, Repr

/-- The `for li in li_items` loop of `extract_references`
(src/wikipedia_to_markdown.py lines 124-128): the accumulator is the
`references` list, and each item is appended with
`ref_number = len(references) + 1`. -/
def ref_loop (base_url : String) : List Node → List RefEntry → List RefEntry
  | [], acc => acc
  | li :: rest, acc =>
    ref_loop base_url rest
      (acc ++ [{ number := toString (acc.length + 1),
                 text := pyStrip (clean_text li false base_url) }])

/-- `ref_ol.find_all("li", recursive=False)`: the direct `li` element
children of the located reference list. -/
def direct_li_children (ol : Node) : List Node :=
  (childrenOf ol).filter (fun c => tagOf c == "li")

/-- Python `extract_references(soup, base_url)` given the located
`ol.references` element (when `soup.find("ol", class_="references")` finds
nothing the source returns the empty list without entering this loop). -/
def extract_references (ref_ol : Node) (base_url : String) : List RefEntry :=
  ref_loop base_url (direct_li_children ref_ol) []

/-- A raw PDF row: each cell a string or null. -/
abbrev RawRow := List (Option String)

/-- A raw PDF grid as yielded by the extraction collaborator: rows may be
null, and the grid itself may be missing (`table or []`). -/
abbrev RawTable := List (Option RawRow)

/-- The first loop of `convert_pdf_table_to_markdown`
(src/wikipedia_to_markdown.py lines 161-167): null rows are dropped and
every cell becomes `(cell if cell is not None else "").strip()`. -/
def processed_rows (t : Option RawTable) : List (List String) :=
  (t.getD []).filterMap (fun orow =>
    orow.map (fun row => row.map (fun cell => pyStrip (cell.getD ""))))

/-- The running `max_cols` of `convert_pdf_table_to_markdown`: the maximum
length over the surviving rows (0 when none survive). -/
def max_cols (t : Option RawTable) : Nat :=
  (processed_rows t).foldl (fun m r => max m r.length) 0

/-- The `padded` list of `convert_pdf_table_to_markdown`: every surviving
row right-padded with empty strings to `max_cols`. -/
def padded_rows (t : Option RawTable) : List (List String) :=
  (processed_rows t).map (fun r => r ++ List.replicate (max_cols t - r.length) "")

/-- One rendered table line: `"| " + " | ".join(row) + " |"`. -/
def md_row (cells : List String) : String :=
  "| " ++ pyJoin " | " cells ++ " |"

/-- Python `convert_pdf_table_to_markdown(table)`
(src/wikipedia_to_markdown.py lines 159-178). -/
def convert_pdf_table_to_markdown (t : Option RawTable) : String :=
  if processed_rows t = [] then ""
  else
    let padded := padded_rows t
    let header := padded.headD []
    let sep := List.replicate (max_cols t) "---"
    let data := padded.tail
    "\n" ++ pyJoin "\n" (md_row header :: md_row sep :: data.map md_row)

/-- The cell rows behind the emitted lines of
`convert_pdf_table_to_markdown`: header, separator, then data, each a
list of pipe-delimited cells. -/
def emitted_cell_rows (t : Option RawTable) : List (List String) :=
  match padded_rows t with
  | [] => []
  | h :: d => h :: List.replicate (max_cols t) "---" :: d

/-- The per-table loop of `extract_pdf_tables`
(src/wikipedia_to_markdown.py lines 186-190), taken over the sequence of
raw grids the PDF collaborator yields: a converted table joins the result
only when `md.strip()` is non-empty. -/
def extract_pdf_tables (tables : List (Option RawTable)) : List String :=
  tables.filterMap (fun t =>
    let md := convert_pdf_table_to_markdown t
    if pyStrip md != "" then some md else none)

/-- The characters `re.sub(r'[\\/*?:"<>|]', "-", name)` replaces. -/
def forbidden_filename_chars : List Char :=
  ['\\', '/', '*', '?', ':', '"', '<', '>', '|']

/-- Python `sanitize_filename(name)` (src/wikipedia_to_markdown.py
lines 282-283): replace path-unsafe characters with `-`, strip, and fall
back to `"wikipedia"` when the stripped result is empty (`or`). -/
def sanitize_filename (name : String) : String :=
  let replaced : String :=
    ⟨name.data.map (fun c => if c ∈ forbidden_filename_chars then '-' else c)⟩
  let stripped := pyStrip replaced
  if stripped = "" then "wikipedia" else stripped

/-- Class annotations of a node (empty when the attribute is absent). -/
def classes_of (n : Node) : List String :=
  (attrsOf n).classes.getD []

/-- Modelled from the spec: the table classifier of §4.2 exists only in
repository variants absent from src/ (the src walker skips every inline
table).  "a table is an infobox if any of its class annotations contains
the substring \"infobox\" (case-insensitive)". -/
def is_infobox_table (t : Node) : Bool :=
  (classes_of t).any (fun c => containsSub "infobox".data (pyLower c).data)

/-- Element children of a node (whitespace text nodes between rows are not
rows or cells). -/
def element_children (n : Node) : List Node :=
  (childrenOf n).filter (fun c => tagOf c != "")

/-- Direct-child rows of a table node. -/
def table_rows (t : Node) : List Node :=
  (childrenOf t).filter (fun c => tagOf c == "tr")

/-- Modelled from the spec (§4.2, infobox path): a row contributes a
property/value pair exactly when its cells are a row-scoped header cell
followed by a data cell, each rendered with `insideTable = true`. -/
def infobox_row_pair (base_url : String) (r : Node) : Option (String × String) :=
  match element_children r with
  | [h, d] =>
    if tagOf h == "th" && (attrsOf h).scope == "row" && tagOf d == "td" then
      some (pyStrip (clean_text h true base_url), pyStrip (clean_text d true base_url))
    else none
  | _ => none

/-- Modelled from the spec (§4.2): the infobox renderer, "a two-column
table with literal header `Property | Value`"; zero pairs render as the
empty string. -/
def render_infobox (base_url : String) (t : Node) : String :=
  let pairs := (table_rows t).filterMap (infobox_row_pair base_url)
  if pairs.isEmpty then ""
  else
    "| Property | Value |" ++ "\n| --- | --- |" ++
      concatAll (pairs.map (fun p => "\n| " ++ p.1 ++ " | " ++ p.2 ++ " |"))

/-- Cell texts of a row, rendered with `insideTable = true`. -/
def row_cells (base_url : String) (r : Node) : List String :=
  (element_children r).filterMap (fun c =>
    if tagOf c == "th" || tagOf c == "td" then
      some (pyStrip (clean_text c true base_url))
    else none)

/-- Whether a row contains a header cell. -/
def row_has_th (r : Node) : Bool :=
  (element_children r).any (fun c => tagOf c == "th")

/-- Whether a row contains a data cell. -/
def row_has_td (r : Node) : Bool :=
  (element_children r).any (fun c => tagOf c == "td")

/-- Modelled from the spec (§4.2, standard path): the first header row
becomes the column header (the first data row is promoted when no header
row exists); all rows are right-padded to the maximum observed column
count; the separator row is `:---` per column. -/
def render_standard (base_url : String) (t : Node) : String :=
  let rows := table_rows t
  let hrows := (rows.filter row_has_th).map (row_cells base_url)
  let drows := ((rows.filter (fun r => !row_has_th r)).filter row_has_td).map (row_cells base_url)
  let chosen : Option (List String × List (List String)) :=
    match hrows with
    | h :: _ => some (h, drows)
    | [] =>
      match drows with
      | d :: rest => some (d, rest)
      | [] => none
  match chosen with
  | none => ""
  | some (h, ds) =>
    let mc := (h :: ds).foldl (fun m r => max m r.length) 0
    let pad := fun (r : List String) => r ++ List.replicate (mc - r.length) ""
    pyJoin "\n" (md_row (pad h) :: md_row (List.replicate mc ":---") :: ds.map (fun r => md_row (pad r)))

/-- Modelled from the spec (§4.2): `renderTable(tableNode)` dispatches on
the infobox classification. -/
def renderTable (base_url : String) (t : Node) : String :=
  if is_infobox_table t then render_infobox base_url t else render_standard base_url t

/-- The stop test of the walker loop: a heading element whose stripped,
lowercased text is in the stop set. -/
def is_stop_heading (stop : List String) (n : Node) : Bool :=
  is_heading_tag (tagOf n) && stop.contains (pyLower (pyStrip (get_text n)))

/-- The body of the spec's stop-section truncation example:
`[H1 "Intro", P "hello", H2 "References", P "ignored"]`. -/
def exBody : List Node :=
  [.elem "h1" {} [.text "Intro"], .elem "p" {} [.text "hello"],
   .elem "h2" {} [.text "References"], .elem "p" {} [.text "ignored"]]

/-- A reference list with three items whose own texts carry misleading
numbering. -/
def exRefOl : Node :=
  .elem "ol" { classes := some ["references"] }
    [.elem "li" {} [.text "[7] first"], .elem "li" {} [.text "2. second"],
     .elem "li" {} [.text "third"]]

/-- A paragraph holding one image with a relative source URL. -/
def exImgPara : Node :=
  .elem "p" {} [.elem "img" { alt := "x", src := "pic.png" } []]

/-- An infobox-classified table (class list `["infobox", "vcard"]`) with one
property/value row. -/
def exInfobox : Node :=
  .elem "table" { classes := some ["infobox", "vcard"] }
    [.elem "tr" {} [.elem "th" { scope := "row" } [.text "Born"],
                    .elem "td" {} [.text "1879"]]]

/-- A standard table (class list `["wikitable"]`) with a header row and a
data row. -/
def exWikitable : Node :=
  .elem "table" { classes := some ["wikitable"] }
    [.elem "tr" {} [.elem "th" {} [.text "A"], .elem "th" {} [.text "B"]],
     .elem "tr" {} [.elem "td" {} [.text "1"], .elem "td" {} [.text "2"]]]

/-- A ragged raw grid: a null row, a short row, and a three-cell row with a
null cell and padded whitespace. -/
def exRaggedGrid : Option RawTable :=
  some [some [some " a "], none, some [some "b", none, some " c "]]

/-! Helper lemmas -/

theorem pyStripList_eq_rdropWhile (l : List Char) :
    pyStripList l = List.rdropWhile Char.isWhitespace (l.dropWhile Char.isWhitespace) := rfl

theorem pyStripList_idem (l : List Char) :
    pyStripList (pyStripList l) = pyStripList l := by
  rw [pyStripList_eq_rdropWhile, pyStripList_eq_rdropWhile]
  set m := l.dropWhile Char.isWhitespace with hmdef
  set r := List.rdropWhile Char.isWhitespace m with hrdef
  have h1 : List.dropWhile Char.isWhitespace r = r := by
    obtain ⟨s, hs⟩ := List.rdropWhile_prefix Char.isWhitespace m
    cases hr : r with
    | nil => rfl
    | cons a t =>
      have hm2 : a :: (t ++ s) = m := by
        rw [← hs, ← hrdef, hr]
        rfl
      have hdm : List.dropWhile Char.isWhitespace m = m := by
        rw [hmdef]
        exact List.dropWhile_idempotent _ _
      have hpa : Char.isWhitespace a = false := by
        by_cases hp : Char.isWhitespace a
        · exfalso
          rw [← hm2, List.dropWhile_cons] at hdm
          rw [if_pos hp] at hdm
          have hlen := congrArg List.length hdm
          have hle : (List.dropWhile Char.isWhitespace (t ++ s)).length ≤ (t ++ s).length :=
            (List.dropWhile_suffix Char.isWhitespace).sublist.length_le
          simp only [List.length_cons] at hlen
          omega
        · simpa using hp
      rw [List.dropWhile_cons, hpa]
      simp
  rw [h1, hrdef]
  exact List.rdropWhile_idempotent _ _

theorem pyStrip_idem (s : String) : pyStrip (pyStrip s) = pyStrip s :=
  congrArg String.mk (pyStripList_idem s.data)

theorem mem_of_mem_pyStripList {c : Char} {l : List Char}
    (h : c ∈ pyStripList l) : c ∈ l := by
  rw [pyStripList_eq_rdropWhile] at h
  have hpre := List.rdropWhile_prefix Char.isWhitespace (l.dropWhile Char.isWhitespace)
  have h1 : c ∈ l.dropWhile Char.isWhitespace := hpre.sublist.mem h
  have hsuf := List.dropWhile_suffix (l := l) Char.isWhitespace
  exact hsuf.sublist.mem h1

/-! Claim C4: sequential reference numbering -/

theorem ref_loop_get (u : String) :
    ∀ (lis : List Node) (acc : List RefEntry),
      (∀ j (hj : j < acc.length), (acc.get ⟨j, hj⟩).number = toString (j + 1)) →
      ∀ i (hi : i < (ref_loop u lis acc).length),
        ((ref_loop u lis acc).get ⟨i, hi⟩).number = toString (i + 1) := by
  intro lis
  induction lis with
  | nil =>
    intro acc hacc i hi
    exact hacc i (by simpa [ref_loop] using hi)
  | cons li rest ih =>
    intro acc hacc i hi
    have hnew : ∀ j (hj : j <
        (acc ++ [RefEntry.mk (toString (acc.length + 1)) (pyStrip (clean_text li false u))]).length),
        ((acc ++ [RefEntry.mk (toString (acc.length + 1))
            (pyStrip (clean_text li false u))]).get ⟨j, hj⟩).number = toString (j + 1) := by
      intro j hj
      rcases Nat.lt_or_ge j acc.length with h | h
      · simp only [List.get_eq_getElem]
        rw [List.getElem_append_left h]
        simpa using hacc j h
      · have hj' : j < acc.length + 1 := by simpa [List.length_append] using hj
        have hje : j = acc.length := by omega
        subst hje
        simp only [List.get_eq_getElem]
        simp
    exact ih _ hnew i hi

/-- C4: reference entries are numbered sequentially by extraction order:
the item at index `i` carries number `i + 1` (a positive integer rendered
with `str`), whatever numeric text the source items themselves embed; for
the three-item list `exRefOl` the numbers are `1, 2, 3`. -/
theorem extract_references_numbering :
    (∀ (ref_ol : Node) (base_url : String) (i : Nat)
        (hi : i < (extract_references ref_ol base_url).length),
        ((extract_references ref_ol base_url).get ⟨i, hi⟩).number = toString (i + 1))
    ∧ (extract_references exRefOl "").map RefEntry.number = ["1", "2", "3"] := by
  constructor
  · intro ref_ol base_url i hi
    exact ref_loop_get base_url (direct_li_children ref_ol) []
      (fun j hj => by simp at hj) i hi
  · decide

/-- Witness for C4 at the concrete reference list. -/
theorem extract_references_numbering_witness :
    ((extract_references exRefOl "").get ⟨2, by decide⟩).number = toString (2 + 1) :=
  extract_references_numbering.1 exRefOl "" 2 (by decide)

/-! Claim C7: purity of the renderer -/

/-- C7 counterexample: `clean_text` also depends on the `base_url`
argument — the same subtree with the same `inside_table` flag renders
differently under two base URLs, because a relative image source is
resolved against the base. -/
theorem clean_text_base_url_counterexample :
    ¬ (clean_text exImgPara false ""
        = clean_text exImgPara false "https://en.wikipedia.org/wiki/A") := by
  decide

/-- C7 (amended): `clean_text` is a pure function of the node subtree, the
`inside_table` flag and the `base_url`: two invocations on equal subtrees
with the same flag and the same base URL return the same string. -/
theorem clean_text_pure :
    ∀ (n m : Node) (it : Bool) (u : String), n = m →
      clean_text n it u = clean_text m it u := by
  intro n m it u h
  rw [h]

/-- Witness for the amended C7. -/
theorem clean_text_pure_witness :
    clean_text exImgPara false "" = clean_text exImgPara false "" :=
  clean_text_pure exImgPara exImgPara false "" rfl

/-! Claim C8: grids with no surviving rows -/

/-- C8: a raw grid with zero surviving rows converts to the empty string,
and such a grid contributes no entry to the merged sequence of rendered
PDF tables. -/
theorem empty_grid_excluded :
    ∀ (t : Option RawTable), processed_rows t = [] →
      convert_pdf_table_to_markdown t = "" ∧
      ∀ (pre post : List (Option RawTable)),
        extract_pdf_tables (pre ++ t :: post) = extract_pdf_tables (pre ++ post) := by
  intro t h
  have hmd : convert_pdf_table_to_markdown t = "" := by
    unfold convert_pdf_table_to_markdown
    rw [if_pos h]
  refine ⟨hmd, ?_⟩
  intro pre post
  unfold extract_pdf_tables
  rw [List.filterMap_append, List.filterMap_append, List.filterMap_cons]
  simp only [hmd]
  rfl

/-- Witness for C8 at a missing grid. -/
theorem empty_grid_excluded_witness :
    convert_pdf_table_to_markdown (none : Option RawTable) = "" ∧
    extract_pdf_tables [(none : Option RawTable)] = extract_pdf_tables [] :=
  ⟨(empty_grid_excluded none (by decide)).1,
   (empty_grid_excluded none (by decide)).2 [] []⟩

/-! Claim C9: reference superscripts without a bracketed integer -/

/-- C9: a superscript classified as a reference marker whose text contains
no `[digits]` substring renders as nothing: the loop neither descends into
its children nor emits a marker. -/
theorem sup_reference_no_marker_silent :
    ∀ (a : Attrs) (cs : List Node) (it : Bool) (u : String),
      hasReferenceClass a = true →
      searchMarkerDigits (get_text (.elem "sup" a cs)).data = none →
      part_of (.elem "sup" a cs) it u = "" ∧
      clean_text (.elem "div" {} [.elem "sup" a cs]) it u = "" := by
  intro a cs it u h1 h2
  have hp : part_of (.elem "sup" a cs) it u = "" := by
    simp [part_of, h1, h2]
  refine ⟨hp, ?_⟩
  have hw : clean_text (.elem "div" {} [.elem "sup" a cs]) it u
      = part_of (.elem "sup" a cs) it u ++ "" := rfl
  rw [hw, hp]
  rfl

/-- Witness for C9 at a reference superscript reading "citation needed". -/
theorem sup_reference_no_marker_silent_witness :
    part_of (.elem "sup" { classes := some ["reference"] } [.text "citation needed"]) false "" = "" ∧
    clean_text (.elem "div" {}
      [.elem "sup" { classes := some ["reference"] } [.text "citation needed"]]) false "" = "" :=
  sup_reference_no_marker_silent { classes := some ["reference"] }
    [.text "citation needed"] false "" (by decide) (by decide)

/-! Claim C10: filename sanitization -/

/-- C10: `sanitize_filename` never returns an empty name (falling back to
"wikipedia"), no path-unsafe character survives it, each unsafe character
is replaced by `-` with surrounding whitespace trimmed, and an all-blank
title falls back to "wikipedia". -/
theorem sanitize_filename_spec :
    (∀ (name : String), sanitize_filename name ≠ "")
    ∧ (∀ (name : String) (c : Char),
        c ∈ (sanitize_filename name).data → c ∉ forbidden_filename_chars)
    ∧ sanitize_filename "  a\\b/c*d?e:f\"g<h>i|j  " = "a-b-c-d-e-f-g-h-i-j"
    ∧ sanitize_filename " \t " = "wikipedia" := by
  refine ⟨?_, ?_, by decide, by decide⟩
  · intro name
    simp only [sanitize_filename]
    split
    · decide
    · assumption
  · intro name c hc
    simp only [sanitize_filename] at hc
    split at hc
    · have hall : ∀ x ∈ "wikipedia".data, x ∉ forbidden_filename_chars := by decide
      exact hall c hc
    · have h2 : c ∈ name.data.map
          (fun c => if c ∈ forbidden_filename_chars then '-' else c) :=
        mem_of_mem_pyStripList hc
      obtain ⟨a, _, ha⟩ := List.mem_map.mp h2
      by_cases hm : a ∈ forbidden_filename_chars
      · rw [if_pos hm] at ha
        rw [← ha]
        decide
      · rw [if_neg hm] at ha
        rwa [← ha]

/-- Witness for C10. -/
theorem sanitize_filename_spec_witness :
    sanitize_filename "a/b" ≠ "" ∧ 'a' ∉ forbidden_filename_chars :=
  ⟨sanitize_filename_spec.1 "a/b",
   sanitize_filename_spec.2.1 "a/b" 'a' (by decide)⟩

/-! Claim C3: raw grid normalization and the padding invariant -/

theorem foldl_max_init_le (rows : List (List String)) (init : Nat) :
    init ≤ rows.foldl (fun m x => max m x.length) init := by
  induction rows generalizing init with
  | nil => exact Nat.le_refl _
  | cons r t ih => exact Nat.le_trans (Nat.le_max_left _ _) (ih (max init r.length))

theorem mem_le_foldl_max (rows : List (List String)) :
    ∀ (init : Nat) (r : List String), r ∈ rows →
      r.length ≤ rows.foldl (fun m x => max m x.length) init := by
  induction rows with
  | nil =>
    intro init r h
    cases h
  | cons a t ih =>
    intro init r h
    rcases List.mem_cons.mp h with h1 | h1
    · subst h1
      exact Nat.le_trans (Nat.le_max_right _ _) (foldl_max_init_le t _)
    · exact ih _ r h1

theorem foldl_max_attained (rows : List (List String)) :
    ∀ init, rows.foldl (fun m x => max m x.length) init = init ∨
      ∃ r ∈ rows, rows.foldl (fun m x => max m x.length) init = r.length := by
  induction rows with
  | nil =>
    intro init
    left
    rfl
  | cons a t ih =>
    intro init
    rcases ih (max init a.length) with h | ⟨r, hr, he⟩
    · rcases Nat.le_total init a.length with hle | hle
      · right
        refine ⟨a, List.mem_cons_self _ _, ?_⟩
        rw [List.foldl_cons, h]
        omega
      · left
        rw [List.foldl_cons, h]
        omega
    · right
      refine ⟨r, List.mem_cons_of_mem _ hr, ?_⟩
      rw [List.foldl_cons]
      exact he

theorem mem_processed_le_max_cols (t : Option RawTable) :
    ∀ r ∈ processed_rows t, r.length ≤ max_cols t := fun r h =>
  mem_le_foldl_max (processed_rows t) 0 r h

theorem padded_row_length (t : Option RawTable) :
    ∀ r ∈ padded_rows t, r.length = max_cols t := by
  intro r h
  obtain ⟨r0, hr0, hre⟩ := List.mem_map.mp h
  have hle := mem_processed_le_max_cols t r0 hr0
  rw [← hre]
  rw [List.length_append, List.length_replicate]
  omega

/-- C3: null rows are dropped and every surviving cell is the trimmed
string of a possibly-null raw cell (so trimming it again changes nothing);
every emitted row of the rendered table — header, separator and data —
has exactly `max_cols` cells, the maximum length over surviving rows,
short rows being right-padded; the rendered output is one `md_row` line
per emitted cell row. -/
theorem pdf_table_shape_invariant :
    (∀ (t : Option RawTable),
      processed_rows t = ((t.getD []).filterMap id).map
        (fun row => row.map (fun cell => pyStrip (cell.getD ""))))
    ∧ (∀ (t : Option RawTable) (r : List String) (c : String),
        r ∈ processed_rows t → c ∈ r → pyStrip c = c)
    ∧ (∀ (t : Option RawTable) (r : List String),
        r ∈ processed_rows t → r.length ≤ max_cols t)
    ∧ (∀ (t : Option RawTable), processed_rows t ≠ [] →
        ∃ r ∈ processed_rows t, r.length = max_cols t)
    ∧ (∀ (t : Option RawTable) (r : List String),
        r ∈ emitted_cell_rows t → r.length = max_cols t)
    ∧ (∀ (t : Option RawTable), processed_rows t ≠ [] →
        convert_pdf_table_to_markdown t
          = "\n" ++ pyJoin "\n" ((emitted_cell_rows t).map md_row))
    ∧ convert_pdf_table_to_markdown exRaggedGrid
        = "\n| a |  |  |\n| --- | --- | --- |\n| b |  | c |" := by
  refine ⟨?_, ?_, ?_, ?_, ?_, ?_, by decide⟩
  · intro t
    unfold processed_rows
    rw [List.map_filterMap]
    rfl
  · intro t r c hr hc
    obtain ⟨orow, _, hor⟩ := List.mem_filterMap.mp hr
    obtain ⟨row, _, hrow⟩ := Option.map_eq_some'.mp hor
    rw [← hrow] at hc
    obtain ⟨cell, _, hcell⟩ := List.mem_map.mp hc
    rw [← hcell]
    exact pyStrip_idem _
  · exact fun t r h => mem_processed_le_max_cols t r h
  · intro t h
    rcases foldl_max_attained (processed_rows t) 0 with h0 | ⟨r, hr, he⟩
    · obtain ⟨r0, rest, hcons⟩ := List.exists_cons_of_ne_nil h
      have hle := mem_processed_le_max_cols t r0 (by rw [hcons]; exact List.mem_cons_self _ _)
      refine ⟨r0, by rw [hcons]; exact List.mem_cons_self _ _, ?_⟩
      have hmc : max_cols t = 0 := h0
      omega
    · exact ⟨r, hr, he.symm⟩
  · intro t r h
    unfold emitted_cell_rows at h
    rcases hp : padded_rows t with _ | ⟨hd, tl⟩
    · rw [hp] at h
      cases h
    · rw [hp] at h
      rcases List.mem_cons.mp h with h1 | h1
      · subst h1
        exact padded_row_length t r (by rw [hp]; exact List.mem_cons_self _ _)
      · rcases List.mem_cons.mp h1 with h2 | h2
        · subst h2
          exact List.length_replicate _ _
        · exact padded_row_length t r (by rw [hp]; exact List.mem_cons_of_mem _ h2)
  · intro t h
    unfold convert_pdf_table_to_markdown
    rw [if_neg h]
    have hpn : padded_rows t ≠ [] := by
      unfold padded_rows
      simpa using h
    rcases hp : padded_rows t with _ | ⟨hd, tl⟩
    · exact absurd hp hpn
    · unfold emitted_cell_rows
      rw [hp]
      simp

/-- Witness for C3 at the ragged grid. -/
theorem pdf_table_shape_invariant_witness :
    (["a"] : List String).length ≤ max_cols exRaggedGrid ∧
    (["b", "", "c"] : List String).length = max_cols exRaggedGrid ∧
    convert_pdf_table_to_markdown exRaggedGrid
      = "\n" ++ pyJoin "\n" ((emitted_cell_rows exRaggedGrid).map md_row) :=
  ⟨pdf_table_shape_invariant.2.2.1 exRaggedGrid ["a"] (by decide),
   pdf_table_shape_invariant.2.2.2.2.1 exRaggedGrid ["b", "", "c"] (by decide),
   pdf_table_shape_invariant.2.2.2.2.2.1 exRaggedGrid (by decide)⟩

/-! Claim C5: bracketed-integer escaping -/

theorem spanDigits_append {ds : List Char} (x : Char) (r : List Char)
    (hds : ∀ c ∈ ds, c.isDigit = true) (hx : x.isDigit = false) :
    spanDigits (ds ++ x :: r) = (ds, x :: r) := by
  induction ds with
  | nil => simp [spanDigits, hx]
  | cons d t ih =>
    have hd : d.isDigit = true := hds d (by simp)
    have ht : ∀ c ∈ t, c.isDigit = true := fun c hc => hds c (by simp [hc])
    simp [spanDigits, hd, ih ht]

theorem escapeBrackets_append_no_bracket {l : List Char} (m : List Char)
    (h : '[' ∉ l) :
    escapeBracketsList (l ++ m) = l ++ escapeBracketsList m := by
  induction l with
  | nil => rfl
  | cons c t ih =>
    have hc : (c == '[') = false := by
      refine beq_eq_false_iff_ne.mpr ?_
      intro he
      exact h (he ▸ List.mem_cons_self _ _)
    have ht : '[' ∉ t := fun hm => h (List.mem_cons_of_mem _ hm)
    simp [escapeBracketsList, hc, ih ht]

/-- C5: in one conversion pass, every full `[digits]` match gets a single
backslash inserted before its opening bracket (stated for an arbitrary
match following a bracket-free prefix), `"[3]"` becomes `"\[3]"`, and the
output for `"hello [3] world"` contains `"\[3]"` exactly once — not
doubly escaped. -/
theorem bracket_escaping_single_pass :
    (∀ (pre post ds : List Char), '[' ∉ pre → ds ≠ [] → (∀ c ∈ ds, c.isDigit = true) →
      escapeBracketsList (pre ++ '[' :: (ds ++ ']' :: post))
        = pre ++ '\\' :: '[' :: (ds ++ ']' :: escapeBracketsList post))
    ∧ escB "[3]" = "\\[3]"
    ∧ countSub "\\[3]".data (escB "hello [3] world").data = 1 := by
  refine ⟨?_, by decide, by decide⟩
  intro pre post ds hpre hne hds
  induction pre with
  | nil =>
    have hspan : spanDigits (ds ++ ']' :: post) = (ds, ']' :: post) :=
      spanDigits_append ']' post hds (by decide)
    have hmark : isMarkerStart (ds ++ ']' :: post) = true := by
      unfold isMarkerStart
      rw [hspan]
      cases ds with
      | nil => exact absurd rfl hne
      | cons d t => rfl
    have hnb : '[' ∉ (ds ++ [']']) := by
      intro hmem
      rcases List.mem_append.mp hmem with hin | hin
      · have := hds '[' hin
        simp at this
      · simp at hin
    have htail := escapeBrackets_append_no_bracket (l := ds ++ [']']) post hnb
    simp only [List.nil_append]
    simp only [escapeBracketsList, hmark]
    simp only [List.append_assoc, List.singleton_append] at htail
    simp [htail]
  | cons c t ih =>
    have hc : (c == '[') = false := by
      refine beq_eq_false_iff_ne.mpr ?_
      intro he
      exact hpre (he ▸ List.mem_cons_self _ _)
    have ht : '[' ∉ t := fun hm => hpre (List.mem_cons_of_mem _ hm)
    simp [escapeBracketsList, hc, ih ht]

/-- Witness for C5 at a one-character prefix and suffix. -/
theorem bracket_escaping_single_pass_witness :
    escapeBracketsList (['x'] ++ '[' :: (['3'] ++ ']' :: ['y']))
      = ['x'] ++ '\\' :: '[' :: (['3'] ++ ']' :: escapeBracketsList ['y']) :=
  bracket_escaping_single_pass.1 ['x'] ['y'] ['3'] (by decide) (by decide) (by decide)

/-! Claim C2: infobox classification and the two rendering paths -/

/-- C2: a table whose class annotations contain the substring "infobox"
(case-insensitively) renders via the property/value path, whose non-empty
output always opens with the literal header `Property | Value`; every
other table renders via the standard path; the class lists
`["infobox", "vcard"]` and `["wikitable"]` land on the two paths as the
spec's examples require. -/
theorem table_render_classification :
    (∀ (u : String) (t : Node), is_infobox_table t = true →
      renderTable u t = render_infobox u t)
    ∧ (∀ (u : String) (t : Node), is_infobox_table t = false →
      renderTable u t = render_standard u t)
    ∧ (∀ (u : String) (t : Node), is_infobox_table t = true → renderTable u t ≠ "" →
      ∃ rest, renderTable u t = "| Property | Value |" ++ rest)
    ∧ is_infobox_table exInfobox = true
    ∧ renderTable "" exInfobox = "| Property | Value |\n| --- | --- |\n| Born | 1879 |"
    ∧ is_infobox_table exWikitable = false
    ∧ renderTable "" exWikitable = "| A | B |\n| :--- | :--- |\n| 1 | 2 |" := by
  have hdisp : ∀ (u : String) (t : Node), is_infobox_table t = true →
      renderTable u t = render_infobox u t := by
    intro u t h
    unfold renderTable
    rw [if_pos h]
  refine ⟨hdisp, ?_, ?_, by decide, by decide, by decide, by decide⟩
  · intro u t h
    unfold renderTable
    rw [if_neg (by simp [h])]
  · intro u t h hne
    rw [hdisp u t h] at hne ⊢
    unfold render_infobox at hne ⊢
    cases hp : ((table_rows t).filterMap (infobox_row_pair u)).isEmpty with
    | true =>
      rw [if_pos hp] at hne
      exact absurd rfl hne
    | false =>
      rw [if_neg (by simp [hp])]
      exact ⟨_, by rw [String.append_assoc]⟩

/-- Witness for C2 at the two concrete tables. -/
theorem table_render_classification_witness :
    renderTable "" exInfobox = render_infobox "" exInfobox ∧
    renderTable "" exWikitable = render_standard "" exWikitable ∧
    (∃ rest, renderTable "" exInfobox = "| Property | Value |" ++ rest) :=
  ⟨table_render_classification.1 "" exInfobox (by decide),
   table_render_classification.2.1 "" exWikitable (by decide),
   table_render_classification.2.2.1 "" exInfobox (by decide) (by decide)⟩

/-! Claim C6: lists render inline inside tables, as bullets outside -/

/-- C6: a list node (`ul` or `ol`) whose three direct items render (after
trimming) to the non-empty strings `A`, `B`, `C` renders as the single
inline string `A, B, C` when `inside_table` is true and as three
`- item` lines when `inside_table` is false. -/
theorem list_rendering_by_context :
    ∀ (ltag : String) (la a1 a2 a3 : Attrs) (c1 c2 c3 : List Node) (u A B C : String),
      (ltag = "ul" ∨ ltag = "ol") →
      pyStrip (clean_text (.elem "li" a1 c1) true u) = A →
      pyStrip (clean_text (.elem "li" a2 c2) true u) = B →
      pyStrip (clean_text (.elem "li" a3 c3) true u) = C →
      pyStrip (clean_text (.elem "li" a1 c1) false u) = A →
      pyStrip (clean_text (.elem "li" a2 c2) false u) = B →
      pyStrip (clean_text (.elem "li" a3 c3) false u) = C →
      A ≠ "" → B ≠ "" → C ≠ "" →
      clean_text (.elem "div" {}
          [.elem ltag la [.elem "li" a1 c1, .elem "li" a2 c2, .elem "li" a3 c3]]) true u
        = A ++ ", " ++ (B ++ ", " ++ C)
      ∧ clean_text (.elem "div" {}
          [.elem ltag la [.elem "li" a1 c1, .elem "li" a2 c2, .elem "li" a3 c3]]) false u
        = "- " ++ A ++ "\n" ++ ("- " ++ B ++ "\n" ++ ("- " ++ C ++ "\n")) := by
  intro ltag la a1 a2 a3 c1 c2 c3 u A B C htag h1t h2t h3t h1f h2f h3f hA hB hC
  have hlit : li_items [.elem "li" a1 c1, .elem "li" a2 c2, .elem "li" a3 c3] true u
      = [A, B, C] := by
    simp only [li_items]
    rw [show pyStrip (clean_parts c1 true u) = A from h1t,
      show pyStrip (clean_parts c2 true u) = B from h2t,
      show pyStrip (clean_parts c3 true u) = C from h3t]
    simp [hA, hB, hC]
  have hlif : li_items [.elem "li" a1 c1, .elem "li" a2 c2, .elem "li" a3 c3] false u
      = [A, B, C] := by
    simp only [li_items]
    rw [show pyStrip (clean_parts c1 false u) = A from h1f,
      show pyStrip (clean_parts c2 false u) = B from h2f,
      show pyStrip (clean_parts c3 false u) = C from h3f]
    simp [hA, hB, hC]
  rcases htag with h | h <;> subst h
  · constructor
    · have hform : clean_text (.elem "div" {}
          [.elem "ul" la [.elem "li" a1 c1, .elem "li" a2 c2, .elem "li" a3 c3]]) true u
          = pyJoin ", " (li_items [.elem "li" a1 c1, .elem "li" a2 c2, .elem "li" a3 c3] true u)
            ++ "" := rfl
      rw [hform, hlit, String.append_empty]
      rfl
    · have hform : clean_text (.elem "div" {}
          [.elem "ul" la [.elem "li" a1 c1, .elem "li" a2 c2, .elem "li" a3 c3]]) false u
          = concatAll ((li_items [.elem "li" a1 c1, .elem "li" a2 c2, .elem "li" a3 c3] false u).map
              (fun it => "- " ++ it ++ "\n")) ++ "" := rfl
      rw [hform, hlif, String.append_empty]
      simp only [List.map_cons, List.map_nil, concatAll, String.append_empty]
  · constructor
    · have hform : clean_text (.elem "div" {}
          [.elem "ol" la [.elem "li" a1 c1, .elem "li" a2 c2, .elem "li" a3 c3]]) true u
          = pyJoin ", " (li_items [.elem "li" a1 c1, .elem "li" a2 c2, .elem "li" a3 c3] true u)
            ++ "" := rfl
      rw [hform, hlit, String.append_empty]
      rfl
    · have hform : clean_text (.elem "div" {}
          [.elem "ol" la [.elem "li" a1 c1, .elem "li" a2 c2, .elem "li" a3 c3]]) false u
          = concatAll ((li_items [.elem "li" a1 c1, .elem "li" a2 c2, .elem "li" a3 c3] false u).map
              (fun it => "- " ++ it ++ "\n")) ++ "" := rfl
      rw [hform, hlif, String.append_empty]
      simp only [List.map_cons, List.map_nil, concatAll, String.append_empty]

/-- Witness for C6 at the literal items A, B, C. -/
theorem list_rendering_by_context_witness :
    clean_text (.elem "div" {}
        [.elem "ul" {} [.elem "li" {} [.text "A"], .elem "li" {} [.text "B"],
          .elem "li" {} [.text "C"]]]) true ""
      = "A" ++ ", " ++ ("B" ++ ", " ++ "C")
    ∧ clean_text (.elem "div" {}
        [.elem "ul" {} [.elem "li" {} [.text "A"], .elem "li" {} [.text "B"],
          .elem "li" {} [.text "C"]]]) false ""
      = "- " ++ "A" ++ "\n" ++ ("- " ++ "B" ++ "\n" ++ ("- " ++ "C" ++ "\n")) :=
  list_rendering_by_context "ul" {} {} {} {} [.text "A"] [.text "B"] [.text "C"] "" "A" "B" "C"
    (Or.inl rfl) (by decide) (by decide) (by decide) (by decide) (by decide) (by decide)
    (by decide) (by decide) (by decide)

/-! Claim C1: stop headings truncate the whole walk -/

/-- C1: once the walker loop reaches a heading whose stripped, lowercased
text is in the stop set (any stop set, in particular one containing the
defaults), the walk ends: the blocks are those of the prefix alone, and no
element after the stop heading contributes anything; on the body
`[H1 "Intro", P "hello", H2 "References", P "ignored"]` with the default
stop set the walker emits exactly the blocks `# Intro` and `hello` (which
the source appends as the lines `"# Intro\n"` and `"hello\n"`). -/
theorem stop_heading_truncates_walk :
    (∀ (stop : List String) (u : String) (pre post : List Node) (h : Node),
      (∀ s ∈ default_stop, s ∈ stop) →
      is_stop_heading stop h = true →
      build_body stop u (pre ++ h :: post) = build_body stop u (pre ++ [h]))
    ∧ (∀ u, build_body default_stop u exBody = ["# Intro", "hello"])
    ∧ (∀ u, body_lines default_stop u exBody = ["# Intro\n", "hello\n"]) := by
  refine ⟨?_, fun u => rfl, fun u => rfl⟩
  intro stop u pre post h hdef hstop
  rw [is_stop_heading, Bool.and_eq_true] at hstop
  obtain ⟨h1, h2⟩ := hstop
  have h2' : pyLower (pyStrip (get_text h)) ∈ stop := by simpa using h2
  induction pre with
  | nil =>
    simp only [List.nil_append]
    simp [build_body, h1, h2']
  | cons e t ihp =>
    simp only [List.cons_append]
    simp only [build_body]
    split
    · split
      · rfl
      · split
        · rw [ihp]
        · exact ihp
    · split
      · split
        · rw [ihp]
        · exact ihp
      · exact ihp

/-- Witness for C1 at the example body and the default stop set. -/
theorem stop_heading_truncates_walk_witness :
    build_body default_stop ""
        ([.elem "h1" {} [.text "Intro"], .elem "p" {} [.text "hello"]]
          ++ (.elem "h2" {} [.text "References"]) :: [.elem "p" {} [.text "ignored"]])
      = build_body default_stop ""
        ([.elem "h1" {} [.text "Intro"], .elem "p" {} [.text "hello"]]
          ++ [.elem "h2" {} [.text "References"]]) :=
  stop_heading_truncates_walk.1 default_stop ""
    [.elem "h1" {} [.text "Intro"], .elem "p" {} [.text "hello"]]
    [.elem "p" {} [.text "ignored"]]
    (.elem "h2" {} [.text "References"])
    (fun s hs => hs) (by decide)

end WikipediaToMarkdown
